import Mathlib

/-!
Verification development for the matrix-expression service in
`src/server/main.py`.

The pipeline under study is:
  `tokenize` (two-pass lexer) → `to_rpn` (shunting-yard parser) →
  `eval_rpn` (stack evaluator over `matrix` / `scalar` tagged values).

Modelling conventions:
* Python token dicts `{"type": ..., "value": ...}` become the `Token`
  structure with two `String` fields.
* Python exceptions become `Except String`; the message strings are the
  exact messages of the source (`raise ValueError(...)`), and a `pop` on an
  empty Python list raises `IndexError` with the exact message
  `"pop from empty list"`, which we model the same way.
* The sympy algebra engine (expression parsing, simplification, rendering,
  and all matrix operations except transpose) is the out-of-scope
  collaborator of the spec; it is modelled as a record of opaque total
  functions (`AlgebraEngine`).  Transpose has a fixed mathematical meaning
  (sympy's `Matrix.T` swaps the entry at `(r, c)` with the one at `(c, r)`),
  so it is modelled concretely.
* A sympy `Matrix` is modelled as a rectangular grid: row and column counts
  plus an entry function (`SymbolicMatrix`).
* Python's `str.isspace` is modelled on its ASCII whitespace characters;
  `str.upper` on ASCII letters is `Char.toUpper` (the lexer only ever
  uppercases characters from its explicit ASCII `letters` string).
* The containment test `tt in "+-*/"` (Python substring test) is modelled
  as `isOpType`, equality with one of the four one-character operator
  strings.  The two agree on every token-type string this program
  constructs ("+", "-", "*", "/", "(", ")", "NUMBER", "WORD", "VAR",
  "FUNC"); they differ only on strings that never occur as a token type
  (for example the empty string).
-/

namespace MatrixServer

/-- The explicit `letters` string of `tokenize` (`main.py` line 64). -/
def lettersList : List Char :=
  ("ABCDEFGHIJKLMNOPQRSTUVWXYZabcdefghijklmnopqrstuvwxyz").data

/-- The explicit `digits` string of `tokenize` (`main.py` line 66). -/
def digitsList : List Char := ("0123456789").data

/-- The explicit `ops` string of `tokenize` (`main.py` line 65). -/
def opsList : List Char := ("+-*/()").data

/-- `ch in letters` (`main.py` lines 92, 94). -/
def isLetterChar (c : Char) : Bool := c ∈ lettersList

/-- `ch in digits` (`main.py` lines 79, 82). -/
def isDigitChar (c : Char) : Bool := c ∈ digitsList

/-- `ch in ops` (`main.py` line 75). -/
def isOpChar (c : Char) : Bool := c ∈ opsList

/-- `ch.isspace()` (`main.py` line 72), modelled on Python's ASCII
whitespace characters. -/
def isSpaceChar (c : Char) : Bool :=
  c ∈ [' ', '\t', '\n', '\r', '\x0b', '\x0c']

/-- The character class scanned inside a number literal:
`expr[j] in digits or expr[j] == '.'` (`main.py` line 82). -/
def isNumChar (c : Char) : Bool := isDigitChar c || c == '.'

/-- `i + 1 < len(expr) and expr[i + 1] in digits` (`main.py` line 79),
phrased on the remaining character list. -/
def firstIsDigit : List Char → Bool
  | [] => false
  | c :: _ => isDigitChar c

/-- A Python token dict `{"type": ..., "value": ...}` (`main.py`
lines 76, 89, 97 and the parser output items of `to_rpn`). -/
structure Token where
  type : String
  value : String
deriving DecidableEq, Repr

/-- First pass of `tokenize` (`main.py` lines 69-100): raw scan.
Whitespace is skipped; each character of `"+-*/()"` is its own token
(type and value both the one-character string); a run of digits and dots
starting with a digit, or with a dot followed by a digit, is a `NUMBER`
(with `"Invalid number format"` raised when the run holds more than one
dot); a run of letters is a `WORD`, uppercased; anything else raises
`"Unexpected character: <ch>"`.  The source advances an index `i` over the
string; we recurse on the remaining character list, consuming the scanned
run (`takeWhile` / `dropWhile` mirror the inner `while` loops). -/
def rawTokenize : List Char → Except String (List Token)
  | [] => Except.ok []
  | c :: rest =>
    if isSpaceChar c then rawTokenize rest
    else if isOpChar c then
      match rawTokenize rest with
      | Except.error e => Except.error e
      | Except.ok ts => Except.ok (⟨String.mk [c], String.mk [c]⟩ :: ts)
    else if isDigitChar c || (c == '.' && firstIsDigit rest) then
      if 1 < (c :: rest.takeWhile isNumChar).count '.' then
        Except.error ("Invalid number format")
      else
        match rawTokenize (rest.dropWhile isNumChar) with
        | Except.error e => Except.error e
        | Except.ok ts =>
          Except.ok (⟨("NUMBER"), String.mk (c :: rest.takeWhile isNumChar)⟩ :: ts)
    else if isLetterChar c then
      match rawTokenize (rest.dropWhile isLetterChar) with
      | Except.error e => Except.error e
      | Except.ok ts =>
        Except.ok
          (⟨("WORD"), String.mk ((c :: rest.takeWhile isLetterChar).map Char.toUpper)⟩ :: ts)
    else Except.error (("Unexpected character: ") ++ String.mk [c])
termination_by l => l.length
decreasing_by
  all_goals simp only [List.length_cons, Nat.lt_succ_iff]
  · exact Nat.le_refl _
  · exact Nat.le_refl _
  · exact (List.dropWhile_sublist _).length_le
  · exact (List.dropWhile_sublist _).length_le

/-- The implicit-multiplication insertion rule of the lexer's second pass
(`main.py` lines 111-130): insert `*` when `prev` is a `NUMBER` and `curr`
is a `WORD` or `(`, or when `prev` is `)` and `curr` is a `WORD`, `(` or
`NUMBER`; the `WORD` branch of the source deliberately does nothing
(`pass`). -/
def insertRule (prev curr : Token) : Bool :=
  if prev.type = ("NUMBER") then
    decide (curr.type = ("WORD") ∨ curr.type = ("("))
  else if prev.type = (")") then
    decide (curr.type = ("WORD") ∨ curr.type = ("(") ∨ curr.type = ("NUMBER"))
  else false

/-- The loop `for k in range(1, len(raw_tokens))` of the second pass
(`main.py` lines 107-135): `prev` is always the previous RAW token. -/
def insertMultAux : Token → List Token → List Token
  | _, [] => []
  | prev, curr :: rest =>
    (if insertRule prev curr then [⟨("*"), ("*")⟩, curr] else [curr]) ++
      insertMultAux curr rest

/-- Second pass of `tokenize` (`main.py` lines 102-137). -/
def insertMult : List Token → List Token
  | [] => []
  | t :: ts => t :: insertMultAux t ts

/-- `tokenize` (`main.py` lines 61-137): raw scan then implicit
multiplication insertion. -/
def tokenize (expr : String) : Except String (List Token) :=
  match rawTokenize expr.data with
  | Except.error e => Except.error e
  | Except.ok raw => Except.ok (insertMult raw)

/-- The precedence table `prec = {"+": 1, "-": 1, "*": 2, "/": 2}`
(`main.py` line 143); the default value is never consulted because the
source only indexes the dict with one of the four operator strings. -/
def prec : String → Nat
  | "+" => 1
  | "-" => 1
  | "*" => 2
  | "/" => 2
  | _ => 0

/-- The function keyword set `funcs` (`main.py` line 144). -/
def funcsSet : List String := [("T"), ("INV"), ("DET"), ("TRACE"), ("RANK"), ("RREF")]

/-- Membership of a token-type string in the operator characters:
the Python test `tt in "+-*/"` (`main.py` lines 164, 165, 222).  See the
module comment for why plain equality with the four one-character strings
is a faithful model on every type string this program constructs. -/
def isOpType (s : String) : Bool :=
  s = ("+") || s = ("-") || s = ("*") || s = ("/")

/-- The pop condition of the shunting-yard operator case (`main.py`
line 165): the operator stack's top is a binary operator whose precedence
is ≥ the incoming operator's precedence. -/
def popCond (tt : String) (o : Token) : Bool :=
  isOpType o.type && prec tt ≤ prec o.type

/-- One iteration of the `for t in tokens` loop of `to_rpn` (`main.py`
lines 145-169), acting on the state `(out, ops)`.  The operator stack
`ops` has its top at the head (Python appends/pops at the end of its
list).  The `while` loops popping the stack are `takeWhile`/`dropWhile`
splits. -/
def rpnStep (st : List Token × List Token) (t : Token) :
    Except String (List Token × List Token) :=
  let out := st.1
  let ops := st.2
  if t.type = ("WORD") then
    if t.value ∈ funcsSet then Except.ok (out, ⟨("FUNC"), t.value⟩ :: ops)
    else Except.ok (out ++ [⟨("VAR"), t.value⟩], ops)
  else if t.type = ("NUMBER") then
    Except.ok (out ++ [⟨("NUMBER"), t.value⟩], ops)
  else if t.type = ("(") then Except.ok (out, t :: ops)
  else if t.type = (")") then
    match ops.dropWhile (fun o => !(o.type == ("("))) with
    | [] => Except.error ("Mismatched parentheses")
    | _ :: restOps =>
      match restOps with
      | f :: restOps' =>
        if f.type = ("FUNC") then
          Except.ok (out ++ ops.takeWhile (fun o => !(o.type == ("("))) ++ [f], restOps')
        else
          Except.ok (out ++ ops.takeWhile (fun o => !(o.type == ("("))), f :: restOps')
      | [] => Except.ok (out ++ ops.takeWhile (fun o => !(o.type == ("("))), [])
  else if isOpType t.type then
    Except.ok (out ++ ops.takeWhile (popCond t.type), t :: ops.dropWhile (popCond t.type))
  else Except.error ("Unknown token")

/-- `to_rpn` (`main.py` lines 140-174): run the token loop, then drain the
operator stack; a leftover `(` during the drain is a mismatched
parenthesis (the source pops one element at a time and raises at the first
`(`; the net effect is an error exactly when some `(` remains, and
otherwise the whole stack appended in pop order). -/
def to_rpn (tokens : List Token) : Except String (List Token) :=
  match tokens.foldlM rpnStep ([], []) with
  | Except.error e => Except.error e
  | Except.ok (out, ops) =>
    if ops.all (fun o => !(o.type == ("("))) then Except.ok (out ++ ops)
    else Except.error ("Mismatched parentheses")

/-- A sympy `Matrix`: an immutable rectangular grid of engine expressions,
given by its dimensions and entry function. -/
structure SymbolicMatrix (E : Type) where
  rows : Nat
  cols : Nat
  entry : Nat → Nat → E

/-- `a.T` (`main.py` line 202): sympy's matrix transpose, swapping the
roles of rows and columns. -/
def transpose {E : Type} (m : SymbolicMatrix E) : SymbolicMatrix E :=
  ⟨m.cols, m.rows, fun r c => m.entry c r⟩

/-- The sympy collaborator, modelled as opaque total functions: expression
parsing (`parse_expr` with `TRANSFORMS`), `sympy.simplify`, `.doit()`,
`latex`, Python `str` on an expression, expression arithmetic, and the
matrix operations of `eval_rpn` other than transpose.  sympy can raise on
some of these (singular inverse, dimension mismatch); none of the claims
proved below depends on those failure paths, so the model keeps them
total. -/
structure AlgebraEngine (E : Type) where
  parse : String → E
  simplify : E → E
  doit : E → E
  latex : E → String
  exprToStr : E → String
  addE : E → E → E
  subE : E → E → E
  mulE : E → E → E
  divE : E → E → E
  inv : SymbolicMatrix E → SymbolicMatrix E
  det : SymbolicMatrix E → E
  trace : SymbolicMatrix E → E
  rank : SymbolicMatrix E → Nat
  rref : SymbolicMatrix E → SymbolicMatrix E × List Nat
  matAdd : SymbolicMatrix E → SymbolicMatrix E → SymbolicMatrix E
  matSub : SymbolicMatrix E → SymbolicMatrix E → SymbolicMatrix E
  matMul : SymbolicMatrix E → SymbolicMatrix E → SymbolicMatrix E
  exprMulMat : E → SymbolicMatrix E → SymbolicMatrix E
  exprDivMat : E → SymbolicMatrix E → SymbolicMatrix E
  matMulExpr : SymbolicMatrix E → E → SymbolicMatrix E
  matDivExpr : SymbolicMatrix E → E → SymbolicMatrix E

/-- A tagged evaluator stack entry `("matrix", m)` / `("scalar", text)`
(`main.py` lines 194, 196; scalars are always held as strings in the
source: the raw `NUMBER` text or `str(...)` of a sympy value). -/
inductive TypedValue (E : Type) where
  | matrix (m : SymbolicMatrix E)
  | scalar (s : String)

/-- The response model `EvalResponse` (`main.py` lines 30-32). -/
inductive EvalResponse where
  | matrixResp (value : List (List String))
  | scalarResp (value : String)
deriving Repr

/-- `format_matrix_result` (`main.py` lines 177-184): render every cell,
through `simplify` when requested and `doit` otherwise. -/
def format_matrix_result {E : Type} (En : AlgebraEngine E)
    (m : SymbolicMatrix E) (simplifyFlag : Bool) : List (List String) :=
  (List.range m.rows).map fun r =>
    (List.range m.cols).map fun c =>
      if simplifyFlag then En.latex (En.simplify (m.entry r c))
      else En.latex (En.doit (m.entry r c))

/-- One iteration of the `for t in rpn` loop of `eval_rpn` (`main.py`
lines 189-270).  `stack.pop()` on an empty Python list raises `IndexError`
with the message `"pop from empty list"`; the binary-operator case pops
`b` first, then `a`, and dispatches on the operand kinds exactly in the
source's order of checks. -/
def evalStep {E : Type} (En : AlgebraEngine E)
    (mmap : String → Option (SymbolicMatrix E)) (simplifyFlag : Bool)
    (stack : List (TypedValue E)) (t : Token) :
    Except String (List (TypedValue E)) :=
  if t.type = ("VAR") then
    match mmap t.value with
    | none => Except.error (("Unknown matrix: ") ++ t.value)
    | some m => Except.ok (TypedValue.matrix m :: stack)
  else if t.type = ("NUMBER") then
    Except.ok (TypedValue.scalar t.value :: stack)
  else if t.type = ("FUNC") then
    match stack with
    | [] => Except.error ("pop from empty list")
    | TypedValue.scalar _ :: _ => Except.error (t.value ++ (" expects a matrix"))
    | TypedValue.matrix a :: rest =>
      if t.value = ("T") then Except.ok (TypedValue.matrix (transpose a) :: rest)
      else if t.value = ("INV") then Except.ok (TypedValue.matrix (En.inv a) :: rest)
      else if t.value = ("DET") then
        Except.ok (TypedValue.scalar
          (En.exprToStr (if simplifyFlag then En.simplify (En.det a) else En.det a)) :: rest)
      else if t.value = ("TRACE") then
        Except.ok (TypedValue.scalar
          (En.exprToStr (if simplifyFlag then En.simplify (En.trace a) else En.trace a)) :: rest)
      else if t.value = ("RANK") then
        Except.ok (TypedValue.scalar (Nat.repr (En.rank a)) :: rest)
      else if t.value = ("RREF") then
        Except.ok (TypedValue.matrix (En.rref a).1 :: rest)
      else Except.error ("Unsupported function")
  else if isOpType t.type then
    match stack with
    | [] => Except.error ("pop from empty list")
    | [_] => Except.error ("pop from empty list")
    | b :: a :: rest =>
      match a, b with
      | TypedValue.scalar sa, TypedValue.matrix mb =>
        if t.type = ("*") then
          Except.ok (TypedValue.matrix (En.exprMulMat (En.parse sa) mb) :: rest)
        else if t.type = ("/") then
          Except.ok (TypedValue.matrix (En.exprDivMat (En.parse sa) mb) :: rest)
        else Except.error ("Only matrix-matrix +,-,* are supported")
      | TypedValue.matrix ma, TypedValue.scalar sb =>
        if t.type = ("*") then
          Except.ok (TypedValue.matrix (En.matMulExpr ma (En.parse sb)) :: rest)
        else if t.type = ("/") then
          Except.ok (TypedValue.matrix (En.matDivExpr ma (En.parse sb)) :: rest)
        else Except.error ("Only matrix-matrix +,-,* are supported")
      | TypedValue.scalar sa, TypedValue.scalar sb =>
        Except.ok (TypedValue.scalar
          (En.exprToStr
            (if simplifyFlag then
              En.simplify
                (if t.type = ("+") then En.addE (En.parse sa) (En.parse sb)
                 else if t.type = ("-") then En.subE (En.parse sa) (En.parse sb)
                 else if t.type = ("*") then En.mulE (En.parse sa) (En.parse sb)
                 else En.divE (En.parse sa) (En.parse sb))
             else
              (if t.type = ("+") then En.addE (En.parse sa) (En.parse sb)
               else if t.type = ("-") then En.subE (En.parse sa) (En.parse sb)
               else if t.type = ("*") then En.mulE (En.parse sa) (En.parse sb)
               else En.divE (En.parse sa) (En.parse sb)))) :: rest)
      | TypedValue.matrix ma, TypedValue.matrix mb =>
        if t.type = ("+") then Except.ok (TypedValue.matrix (En.matAdd ma mb) :: rest)
        else if t.type = ("-") then Except.ok (TypedValue.matrix (En.matSub ma mb) :: rest)
        else if t.type = ("*") then Except.ok (TypedValue.matrix (En.matMul ma mb) :: rest)
        else Except.error ("Matrix division is not supported")
  else Except.error ("Invalid token type")

/-- `eval_rpn` (`main.py` lines 187-284): run the stack machine, require a
single final value, and render it (matrix: cell-wise; scalar: re-parse,
then `simplify` or `doit`, then `latex`). -/
def eval_rpn {E : Type} (En : AlgebraEngine E) (rpn : List Token)
    (mmap : String → Option (SymbolicMatrix E)) (simplifyFlag : Bool) :
    Except String EvalResponse :=
  match rpn.foldlM (evalStep En mmap simplifyFlag) [] with
  | Except.error e => Except.error e
  | Except.ok stack =>
    match stack with
    | [TypedValue.matrix m] =>
      Except.ok (EvalResponse.matrixResp (format_matrix_result En m simplifyFlag))
    | [TypedValue.scalar s] =>
      Except.ok (EvalResponse.scalarResp
        (En.latex (if simplifyFlag then En.simplify (En.parse s) else En.doit (En.parse s))))
    | _ => Except.error ("Invalid expression format. Use formats like: A + B, T(A), INV(A), DET(A)")

/-- The `/evaluate` handler body on one request (`main.py` lines 294-295):
`eval_rpn(to_rpn(tokenize(expression)), matrices_map, simplify_result)`,
with any raised error surfaced as the error string. -/
def runPipeline {E : Type} (En : AlgebraEngine E) (expr : String)
    (mmap : String → Option (SymbolicMatrix E)) (simplifyFlag : Bool) :
    Except String EvalResponse :=
  match tokenize expr with
  | Except.error e => Except.error e
  | Except.ok ts =>
    match to_rpn ts with
    | Except.error e => Except.error e
    | Except.ok rpn => eval_rpn En rpn mmap simplifyFlag

/-- A concrete engine instance (expressions as strings, arbitrary total
operations) used to instantiate witnesses on concrete inputs. -/
def strEngine : AlgebraEngine String where
  parse := id
  simplify := id
  doit := id
  latex := id
  exprToStr := id
  addE := fun a b => a ++ ("+") ++ b
  subE := fun a b => a ++ ("-") ++ b
  mulE := fun a b => a ++ ("*") ++ b
  divE := fun a b => a ++ ("/") ++ b
  inv := id
  det := fun _ => ("det")
  trace := fun _ => ("trace")
  rank := fun m => m.rows
  rref := fun m => (m, [])
  matAdd := fun a _ => a
  matSub := fun a _ => a
  matMul := fun a _ => a
  exprMulMat := fun _ m => m
  exprDivMat := fun _ m => m
  matMulExpr := fun m _ => m
  matDivExpr := fun m _ => m

/-- The number of adjacent raw-token pairs matching an insertion rule. -/
def insertCount (raw : List Token) : Nat :=
  (raw.zip raw.tail).countP fun pc => insertRule pc.1 pc.2

/-- A contiguous run of digit-or-dot characters holding at least two
decimal points (the spec's "numeric run with more than one decimal
point"). -/
def hasBadNumRun (l : List Char) : Prop :=
  ∃ t : List Char, t <:+: l ∧ (∀ c ∈ t, isNumChar c = true) ∧ 2 ≤ t.count '.'

/-- A character outside every class the lexer recognises: not whitespace,
not one of `+ - * / ( )`, not a digit, not `.`, not a letter. -/
def isOutsideChar (c : Char) : Bool :=
  !(isSpaceChar c || isOpChar c || isDigitChar c || c == '.' || isLetterChar c)

/-- Paren-token test for the parser's operator stack. -/
def isParenTok (o : Token) : Bool := o.type == ("(")

/-- Token types a lexer output can carry (specification-level notion used
to state the parenthesis claim). -/
def lexTypeOK (t : Token) : Bool :=
  t.type ∈ ([("+"), ("-"), ("*"), ("/"), ("("), (")"), ("NUMBER"), ("WORD")] : List String)

/-- Specification-level balance scan: thread the number of currently open
parentheses through the token sequence; `none` marks a `)` with no open
`(`; otherwise return the number of unclosed `(` at the end.  A sequence
is balanced exactly when the scan returns `some 0`. -/
def parenScan : Nat → List Token → Option Nat
  | k, [] => some k
  | k, t :: rest =>
    if t.type = ("(") then parenScan (k + 1) rest
    else if t.type = (")") then
      match k with
      | 0 => none
      | k' + 1 => parenScan k' rest
    else parenScan k rest

/-! ### Helper lemmas -/

/-- Transpose is a definitional involution on rectangular matrices. -/
theorem transpose_transpose {E : Type} (m : SymbolicMatrix E) :
    transpose (transpose m) = m := rfl

/-- The head of `dropWhile p l`, when present, fails `p`. -/
theorem head_dropWhile_false {α : Type} (p : α → Bool) :
    ∀ (l : List α) (x : α), (l.dropWhile p).head? = some x → p x = false := by
  intro l
  induction l with
  | nil => simp [List.dropWhile]
  | cons c cs ih =>
    intro x
    by_cases h : p c
    · simpa [List.dropWhile, h] using ih x
    · simp only [List.dropWhile, h, if_neg, Bool.false_eq_true, not_false_eq_true,
        List.head?_cons, Option.some.injEq]
      rintro rfl
      simpa using h

/-- Unfolding step of `List.foldlM` in the `Except` monad at a successful
step. -/
theorem foldlM_step_ok {σ α : Type} (f : σ → α → Except String σ) (s s' : σ)
    (t : α) (ts : List α) (h : f s t = Except.ok s') :
    List.foldlM f s (t :: ts) = List.foldlM f s' ts := by
  rw [List.foldlM_cons, h]
  rfl

/-- Unfolding step of `List.foldlM` in the `Except` monad at a failing
step. -/
theorem foldlM_step_err {σ α : Type} (f : σ → α → Except String σ) (s : σ)
    (e : String) (t : α) (ts : List α) (h : f s t = Except.error e) :
    List.foldlM f s (t :: ts) = Except.error e := by
  rw [List.foldlM_cons, h]
  rfl

/-- The length of the second lexer pass, via the helper loop. -/
theorem insertMultAux_length : ∀ (rest : List Token) (prev : Token),
    (insertMultAux prev rest).length =
      rest.length + ((prev :: rest).zip rest).countP (fun pc => insertRule pc.1 pc.2) := by
  intro rest
  induction rest with
  | nil => intro prev; simp [insertMultAux]
  | cons c rs ih =>
    intro prev
    by_cases h : insertRule prev c <;>
      simp [insertMultAux, h, List.countP_cons, ih c] <;> omega

/-- The `VAR` case of `evalStep`, exposed as an equation on the binding
lookup so that a hypothesis about the binding map can be rewritten in. -/
theorem evalStep_var {E : Type} (En : AlgebraEngine E)
    (mmap : String → Option (SymbolicMatrix E)) (simplifyFlag : Bool)
    (stack : List (TypedValue E)) (name : String) :
    evalStep En mmap simplifyFlag stack ⟨("VAR"), name⟩ =
      (match mmap name with
       | none => Except.error (("Unknown matrix: ") ++ name)
       | some m => Except.ok (TypedValue.matrix m :: stack)) := rfl

/-- A digit is a number character. -/
theorem isNumChar_of_digit {c : Char} (h : isDigitChar c = true) :
    isNumChar c = true := by
  simp [isNumChar, h]

/-- Every token of the second lexer pass is a raw token or the synthetic
`*`. -/
theorem mem_insertMultAux : ∀ (rest : List Token) (prev tok : Token),
    tok ∈ insertMultAux prev rest → tok ∈ rest ∨ tok = ⟨("*"), ("*")⟩ := by
  intro rest
  induction rest with
  | nil => simp [insertMultAux]
  | cons c rs ih =>
    intro prev tok h
    simp only [insertMultAux] at h
    by_cases hr : insertRule prev c = true
    · simp only [hr, if_true, List.cons_append, List.mem_cons, List.nil_append] at h
      rcases h with h | h | h
      · exact Or.inr h
      · exact Or.inl (by simp [h])
      · rcases ih c tok h with h' | h'
        · exact Or.inl (List.mem_cons_of_mem _ h')
        · exact Or.inr h'
    · simp only [hr, if_false, Bool.false_eq_true, List.cons_append, List.mem_cons,
        List.nil_append] at h
      rcases h with h | h
      · exact Or.inl (by simp [h])
      · rcases ih c tok h with h' | h'
        · exact Or.inl (List.mem_cons_of_mem _ h')
        · exact Or.inr h'

/-- Every token after implicit-multiplication insertion is a raw token or
the synthetic `*`. -/
theorem mem_insertMult (raw : List Token) (tok : Token)
    (h : tok ∈ insertMult raw) : tok ∈ raw ∨ tok = ⟨("*"), ("*")⟩ := by
  cases raw with
  | nil => simp [insertMult] at h
  | cons t ts =>
    simp only [insertMult, List.mem_cons] at h
    rcases h with h | h
    · exact Or.inl (by simp [h])
    · rcases mem_insertMultAux ts t tok h with h' | h'
      · exact Or.inl (List.mem_cons_of_mem _ h')
      · exact Or.inr h'

/-- Invariant of the raw scan: on success, every `NUMBER` token consists
of digit/dot characters only, holds at most one dot, and holds at least
one digit. -/
theorem rawTokenize_number_inv : ∀ (l : List Char) (ts : List Token),
    rawTokenize l = Except.ok ts →
    ∀ tok ∈ ts, tok.type = ("NUMBER") →
      tok.value.data.all isNumChar = true
      ∧ tok.value.data.count '.' ≤ 1
      ∧ tok.value.data.any isDigitChar = true := by
  intro l
  induction l using rawTokenize.induct with
  | case1 =>
    intro ts hts tok hmem _
    simp only [rawTokenize] at hts
    obtain rfl : ([] : List Token) = ts := by simpa using hts
    simp at hmem
  | case2 c tail hs ih =>
    intro ts hts tok hmem htype
    rw [show rawTokenize (c :: tail) = rawTokenize tail by
      simp [rawTokenize, hs]] at hts
    exact ih ts hts tok hmem htype
  | case3 c tail hs ho e herr ih =>
    intro ts hts tok hmem htype
    rw [show rawTokenize (c :: tail) = Except.error e by
      simp [rawTokenize, hs, ho, herr]] at hts
    cases hts
  | case4 c tail hs ho ts0 hok ih =>
    intro ts hts tok hmem htype
    rw [show rawTokenize (c :: tail) =
        Except.ok (⟨String.mk [c], String.mk [c]⟩ :: ts0) by
      simp [rawTokenize, hs, ho, hok]] at hts
    obtain rfl : (⟨String.mk [c], String.mk [c]⟩ : Token) :: ts0 = ts := by
      simpa using hts
    rcases List.mem_cons.mp hmem with h | h
    · exfalso
      rw [h] at htype
      dsimp only at htype
      have hl : ("NUMBER" : String).length = 1 := by rw [← htype]; rfl
      exact absurd hl (by decide)
    · exact ih ts0 hok tok h htype
  | case5 c tail hs ho hnum hcnt =>
    intro ts hts tok hmem htype
    rw [show rawTokenize (c :: tail) = Except.error ("Invalid number format") by
      simp only [rawTokenize]
      rw [if_neg (by simp [hs]), if_neg (by simp [ho]), if_pos hnum, if_pos hcnt]] at hts
    cases hts
  | case6 c tail hs ho hnum hcnt e herr ih =>
    intro ts hts tok hmem htype
    rw [show rawTokenize (c :: tail) = Except.error e by
      simp only [rawTokenize]
      rw [if_neg (by simp [hs]), if_neg (by simp [ho]), if_pos hnum, if_neg hcnt, herr]] at hts
    cases hts
  | case7 c tail hs ho hnum hcnt ts0 hok ih =>
    intro ts hts tok hmem htype
    rw [show rawTokenize (c :: tail) =
        Except.ok (⟨("NUMBER"), String.mk (c :: tail.takeWhile isNumChar)⟩ :: ts0) by
      simp only [rawTokenize]
      rw [if_neg (by simp [hs]), if_neg (by simp [ho]), if_pos hnum, if_neg hcnt, hok]] at hts
    obtain rfl : (⟨("NUMBER"), String.mk (c :: tail.takeWhile isNumChar)⟩ : Token) :: ts0
        = ts := by simpa using hts
    have hnum' : isDigitChar c = true ∨ (c == '.' && firstIsDigit tail) = true := by
      simpa using hnum
    have hcnum : isNumChar c = true := by
      rcases hnum' with h | h
      · exact isNumChar_of_digit h
      · have h' : (c == '.') = true ∧ firstIsDigit tail = true := by simpa using h
        simp [isNumChar, h'.1]
    rcases List.mem_cons.mp hmem with h | h
    · subst h
      dsimp only
      refine ⟨?_, by omega, ?_⟩
      · simp only [List.all_cons, hcnum, Bool.true_and]
        rw [List.all_eq_true]
        intro x hx
        exact List.mem_takeWhile_imp hx
      · rcases hnum' with hdig | hdot
        · simp [hdig]
        · have hfid : firstIsDigit tail = true := by
            have h' : (c == '.') = true ∧ firstIsDigit tail = true := by simpa using hdot
            exact h'.2
          cases tail with
          | nil => simp [firstIsDigit] at hfid
          | cons d tail' =>
            have hd : isDigitChar d = true := hfid
            simp only [List.takeWhile_cons, isNumChar_of_digit hd, if_true]
            simp [hd]
    · exact ih ts0 hok tok h htype
  | case8 c tail hs ho hnum hlet e herr ih =>
    intro ts hts tok hmem htype
    rw [show rawTokenize (c :: tail) = Except.error e by
      simp only [rawTokenize]
      rw [if_neg (by simp [hs]), if_neg (by simp [ho]), if_neg hnum, if_pos hlet, herr]] at hts
    cases hts
  | case9 c tail hs ho hnum hlet ts0 hok ih =>
    intro ts hts tok hmem htype
    rw [show rawTokenize (c :: tail) =
        Except.ok (⟨("WORD"),
          String.mk ((c :: tail.takeWhile isLetterChar).map Char.toUpper)⟩ :: ts0) by
      simp only [rawTokenize]
      rw [if_neg (by simp [hs]), if_neg (by simp [ho]), if_neg hnum, if_pos hlet, hok]] at hts
    obtain rfl : (⟨("WORD"),
        String.mk ((c :: tail.takeWhile isLetterChar).map Char.toUpper)⟩ : Token) :: ts0
        = ts := by simpa using hts
    rcases List.mem_cons.mp hmem with h | h
    · exfalso
      rw [h] at htype
      dsimp only at htype
      exact absurd htype (by decide)
    · exact ih ts0 hok tok h htype
  | case10 c tail hs ho hnum hlet =>
    intro ts hts tok hmem htype
    rw [show rawTokenize (c :: tail) =
        Except.error (("Unexpected character: ") ++ String.mk [c]) by
      simp only [rawTokenize]
      rw [if_neg (by simp [hs]), if_neg (by simp [ho]), if_neg hnum, if_neg hlet]] at hts
    cases hts

/-! ### Claims -/

/-- Claim C1, counterexample.  The claim says every failure anywhere in the
pipeline produces a message naming the offending token, matrix, or
operation, in particular when an operator is reached with too few values
on the evaluator's stack.  But the evaluator pops its stack with Python's
`list.pop`, so an underflow raises a bare `IndexError` whose message is
`"pop from empty list"`: evaluating the postfix sequence consisting of the
single token `+` fails with that message, and the message does not contain
the offending token `+` at all. -/
theorem claim_C1_counterexample :
    eval_rpn strEngine [⟨("+"), ("+")⟩] (fun _ => none) false =
      Except.error ("pop from empty list")
    ∧ ¬ List.IsInfix ("+").data ("pop from empty list").data :=
  ⟨rfl, by decide⟩

/-- Claim C1, amended: for every postfix sequence in which an operator or
function token is reached with too few values on the evaluator's stack (a
function token with an empty stack, or a binary-operator token with fewer
than two stacked values), evaluation fails with Python's generic
`IndexError` message `"pop from empty list"` — a fixed message that does
not name the offending token or operation, so not every failure message
names the offending token, matrix, or operation.  The theorem quantifies
over the evaluated prefix `rpn1` (whose evaluation produced the
too-short stack), the underflowing token `t`, and the unevaluated
remainder `rpn2`. -/
theorem claim_C1_amended : ∀ {E : Type} (En : AlgebraEngine E)
    (mmap : String → Option (SymbolicMatrix E)) (simplifyFlag : Bool)
    (rpn1 rpn2 : List Token) (t : Token) (st : List (TypedValue E)),
    List.foldlM (evalStep En mmap simplifyFlag) [] rpn1 = Except.ok st →
    ((t.type = ("FUNC") ∧ st = []) ∨ (isOpType t.type = true ∧ st.length < 2)) →
    eval_rpn En (rpn1 ++ t :: rpn2) mmap simplifyFlag =
      Except.error ("pop from empty list") := by
  intro E En mmap simplifyFlag rpn1 rpn2 t st h1 h2
  have hstep : evalStep En mmap simplifyFlag st t =
      Except.error ("pop from empty list") := by
    obtain ⟨ty, v⟩ := t
    dsimp only at h2
    rcases h2 with ⟨hty, hst⟩ | ⟨hty, hlen⟩
    · subst hty
      subst hst
      rfl
    · have h4 : ((ty = ("+") ∨ ty = ("-")) ∨ ty = ("*")) ∨ ty = ("/") := by
        simpa [isOpType] using hty
      cases st with
      | nil => rcases h4 with ((h | h) | h) | h <;> subst h <;> rfl
      | cons x st' =>
        cases st' with
        | nil => rcases h4 with ((h | h) | h) | h <;> subst h <;> rfl
        | cons y st'' =>
          exfalso
          simp only [List.length_cons] at hlen
          omega
  have hfold : List.foldlM (evalStep En mmap simplifyFlag) [] (rpn1 ++ t :: rpn2) =
      Except.error ("pop from empty list") := by
    rw [List.foldlM_append, h1]
    exact foldlM_step_err _ _ _ _ _ hstep
  rw [eval_rpn, hfold]

/-- Claim C1, witness for the amended theorem: the postfix sequence
`NUMBER "1", +` underflows on the operator's second pop (one stacked
value) and fails with the generic message. -/
theorem claim_C1_amended_witness :
    eval_rpn strEngine [⟨("NUMBER"), ("1")⟩, ⟨("+"), ("+")⟩] (fun _ => none) false =
      Except.error ("pop from empty list") :=
  claim_C1_amended strEngine (fun _ => none) false [⟨("NUMBER"), ("1")⟩] []
    ⟨("+"), ("+")⟩ [TypedValue.scalar ("1")] rfl (Or.inr ⟨rfl, by decide⟩)

/-- Claim C2: the second lexer pass inserts a synthetic `*` between `prev`
and `curr` exactly when `prev` is a `NUMBER` and `curr` is a `WORD` or
`(`, or `prev` is `)` and `curr` is a `WORD`, `(` or `NUMBER`; no rule
fires when `prev` is a `WORD`; and the token count after insertion equals
the raw count plus the number of adjacent raw pairs matching a rule. -/
theorem claim_C2_insertion :
    (∀ prev curr : Token, insertRule prev curr = true ↔
      ((prev.type = ("NUMBER") ∧ (curr.type = ("WORD") ∨ curr.type = ("("))) ∨
       (prev.type = (")") ∧
         (curr.type = ("WORD") ∨ curr.type = ("(") ∨ curr.type = ("NUMBER")))))
    ∧ (∀ prev curr : Token, prev.type = ("WORD") → insertRule prev curr = false)
    ∧ (∀ raw : List Token, (insertMult raw).length = raw.length + insertCount raw) := by
  refine ⟨?_, ?_, ?_⟩
  · intro prev curr
    by_cases h1 : prev.type = ("NUMBER")
    · simp +decide [insertRule, h1]
    · by_cases h2 : prev.type = (")")
      · simp +decide [insertRule, h1, h2]
      · simp +decide [insertRule, h1, h2]
  · intro prev curr h
    simp +decide [insertRule, h]
  · intro raw
    cases raw with
    | nil => simp [insertMult, insertCount]
    | cons t ts =>
      simp only [insertMult, List.length_cons, insertCount, List.tail_cons]
      rw [insertMultAux_length ts t]
      omega

/-- Claim C2, witness: the rule characterisation at `NUMBER`-then-`(`
(fires) and the no-fire guarantee at a `WORD` prefix token. -/
theorem claim_C2_insertion_witness :
    insertRule ⟨("NUMBER"), ("2")⟩ ⟨("("), ("(")⟩ = true ∧
    insertRule ⟨("WORD"), ("A")⟩ ⟨("("), ("(")⟩ = false :=
  ⟨(claim_C2_insertion.1 ⟨("NUMBER"), ("2")⟩ ⟨("("), ("(")⟩).mpr
      (Or.inl ⟨rfl, Or.inr rfl⟩),
   claim_C2_insertion.2.1 ⟨("WORD"), ("A")⟩ ⟨("("), ("(")⟩ rfl⟩

/-- Claim C3: the parser is left-associative shunting-yard with precedence
`{+:1, -:1, *:2, /:2}`: an incoming binary operator pops exactly the
maximal top segment of the operator stack consisting of binary operators
of greater-or-equal precedence to the output, then pushes itself (the
element left on top after the pops, if any, is not a binary operator or
has strictly smaller precedence); and `toPostfix` of the token sequence of
`"A+B*C"` is exactly `A, B, C, *, +`. -/
theorem claim_C3_shunting :
    (∀ (t : Token) (out ops : List Token), isOpType t.type = true →
      ∃ popped rest,
        rpnStep (out, ops) t = Except.ok (out ++ popped, t :: rest)
        ∧ ops = popped ++ rest
        ∧ (∀ o ∈ popped, isOpType o.type = true ∧ prec t.type ≤ prec o.type)
        ∧ (∀ o, rest.head? = some o →
            isOpType o.type = false ∨ prec o.type < prec t.type))
    ∧ tokenize ("A+B*C") =
        Except.ok [⟨("WORD"), ("A")⟩, ⟨("+"), ("+")⟩, ⟨("WORD"), ("B")⟩,
          ⟨("*"), ("*")⟩, ⟨("WORD"), ("C")⟩]
    ∧ to_rpn [⟨("WORD"), ("A")⟩, ⟨("+"), ("+")⟩, ⟨("WORD"), ("B")⟩,
          ⟨("*"), ("*")⟩, ⟨("WORD"), ("C")⟩] =
        Except.ok [⟨("VAR"), ("A")⟩, ⟨("VAR"), ("B")⟩, ⟨("VAR"), ("C")⟩,
          ⟨("*"), ("*")⟩, ⟨("+"), ("+")⟩] := by
  refine ⟨?_, ?_, rfl⟩
  · intro t out ops h
    obtain ⟨ty, v⟩ := t
    dsimp only at h ⊢
    refine ⟨ops.takeWhile (popCond ty), ops.dropWhile (popCond ty), ?_, ?_, ?_, ?_⟩
    · simp only [isOpType, Bool.or_eq_true, decide_eq_true_eq] at h
      rcases h with ((h | h) | h) | h <;> subst h <;> rfl
    · exact (List.takeWhile_append_dropWhile _ _).symm
    · intro o ho
      have hc := List.mem_takeWhile_imp ho
      simpa [popCond, Bool.and_eq_true, decide_eq_true_eq] using hc
    · intro o ho
      have hc := head_dropWhile_false (popCond ty) ops o ho
      by_cases hop : isOpType o.type = true
      · simp only [popCond, hop, Bool.true_and, decide_eq_false_iff_not, not_le] at hc
        exact Or.inr hc
      · simp only [Bool.not_eq_true] at hop
        exact Or.inl hop
  · simp +decide [tokenize, rawTokenize, insertMult, insertMultAux, insertRule]

/-- Claim C3, witness: the incoming `*` over a stack holding `+` pops
nothing (precedence 2 is not ≤ 1) and pushes itself. -/
theorem claim_C3_shunting_witness :
    ∃ popped rest,
      rpnStep ([], [⟨("+"), ("+")⟩]) ⟨("*"), ("*")⟩ =
        Except.ok ([] ++ popped, ⟨("*"), ("*")⟩ :: rest)
      ∧ [⟨("+"), ("+")⟩] = popped ++ rest
      ∧ (∀ o ∈ popped, isOpType o.type = true ∧ prec ("*") ≤ prec o.type)
      ∧ (∀ o, rest.head? = some o →
          isOpType o.type = false ∨ prec o.type < prec ("*")) :=
  claim_C3_shunting.1 ⟨("*"), ("*")⟩ [] [⟨("+"), ("+")⟩] rfl

/-- Claim C4: with two matrix-tagged operands on the stack (in any
surrounding stack and with any matrix contents), the `/` operator always
fails with `"Matrix division is not supported"`; consequently the whole
pipeline on `"A/A"` fails with that message for every bound matrix `A`. -/
theorem claim_C4_matrix_division :
    (∀ {E : Type} (En : AlgebraEngine E) (mmap : String → Option (SymbolicMatrix E))
      (simplifyFlag : Bool) (ma mb : SymbolicMatrix E) (st : List (TypedValue E)),
      evalStep En mmap simplifyFlag
          (TypedValue.matrix mb :: TypedValue.matrix ma :: st) ⟨("/"), ("/")⟩ =
        Except.error ("Matrix division is not supported"))
    ∧ (∀ {E : Type} (En : AlgebraEngine E) (mmap : String → Option (SymbolicMatrix E))
        (simplifyFlag : Bool) (m : SymbolicMatrix E), mmap ("A") = some m →
        runPipeline En ("A/A") mmap simplifyFlag =
          Except.error ("Matrix division is not supported")) := by
  constructor
  · intro E En mmap simplifyFlag ma mb st
    rfl
  · intro E En mmap simplifyFlag m h
    have h1 : tokenize ("A/A") =
        Except.ok [⟨("WORD"), ("A")⟩, ⟨("/"), ("/")⟩, ⟨("WORD"), ("A")⟩] := by
      simp +decide [tokenize, rawTokenize, insertMult, insertMultAux, insertRule]
    have h2 : to_rpn [⟨("WORD"), ("A")⟩, ⟨("/"), ("/")⟩, ⟨("WORD"), ("A")⟩] =
        Except.ok [⟨("VAR"), ("A")⟩, ⟨("VAR"), ("A")⟩, ⟨("/"), ("/")⟩] := rfl
    have e1 : evalStep En mmap simplifyFlag [] ⟨("VAR"), ("A")⟩ =
        Except.ok [TypedValue.matrix m] := by
      rw [evalStep_var, h]
    have e2 : evalStep En mmap simplifyFlag [TypedValue.matrix m] ⟨("VAR"), ("A")⟩ =
        Except.ok [TypedValue.matrix m, TypedValue.matrix m] := by
      rw [evalStep_var, h]
    have efold : List.foldlM (evalStep En mmap simplifyFlag) []
        [⟨("VAR"), ("A")⟩, ⟨("VAR"), ("A")⟩, ⟨("/"), ("/")⟩] =
        Except.error ("Matrix division is not supported") := by
      rw [foldlM_step_ok _ _ _ _ _ e1, foldlM_step_ok _ _ _ _ _ e2,
        foldlM_step_err _ _ _ _ _ rfl]
    rw [runPipeline, h1]
    dsimp only
    rw [h2]
    dsimp only
    rw [eval_rpn, efold]

/-- Claim C4, witness: the pipeline on `"A/A"` at a concrete binding. -/
theorem claim_C4_matrix_division_witness :
    runPipeline strEngine ("A/A")
        (fun n => if n = ("A") then some ⟨1, 1, fun _ _ => ("x")⟩ else none) false =
      Except.error ("Matrix division is not supported") :=
  claim_C4_matrix_division.2 strEngine _ false ⟨1, 1, fun _ _ => ("x")⟩ rfl

/-- Claim C8: applying `RANK` to a matrix operand pushes a `Scalar` whose
text is the decimal representation of a natural number (`str(int(...))` in
the source: the text is an exact integer), and the pushed value does not
pass through simplification: the result is the same whether the simplify
flag is true or false.  By contrast `DET` and `TRACE` apply `simplify` to
the pushed value exactly when the flag is set. -/
theorem claim_C8_rank : ∀ {E : Type} (En : AlgebraEngine E)
    (mmap : String → Option (SymbolicMatrix E)) (m : SymbolicMatrix E)
    (st : List (TypedValue E)),
    (evalStep En mmap true (TypedValue.matrix m :: st) ⟨("FUNC"), ("RANK")⟩ =
      Except.ok (TypedValue.scalar (Nat.repr (En.rank m)) :: st))
    ∧ (evalStep En mmap false (TypedValue.matrix m :: st) ⟨("FUNC"), ("RANK")⟩ =
      Except.ok (TypedValue.scalar (Nat.repr (En.rank m)) :: st))
    ∧ (∃ k : Nat, Nat.repr (En.rank m) = Nat.repr k)
    ∧ (evalStep En mmap true (TypedValue.matrix m :: st) ⟨("FUNC"), ("DET")⟩ =
      Except.ok (TypedValue.scalar (En.exprToStr (En.simplify (En.det m))) :: st))
    ∧ (evalStep En mmap false (TypedValue.matrix m :: st) ⟨("FUNC"), ("DET")⟩ =
      Except.ok (TypedValue.scalar (En.exprToStr (En.det m)) :: st))
    ∧ (evalStep En mmap true (TypedValue.matrix m :: st) ⟨("FUNC"), ("TRACE")⟩ =
      Except.ok (TypedValue.scalar (En.exprToStr (En.simplify (En.trace m))) :: st)) :=
  fun _ _ _ _ => ⟨rfl, rfl, ⟨_, rfl⟩, rfl, rfl, rfl⟩

/-- Claim C10: an all-whitespace (in particular empty) expression string
lexes to the empty token sequence without error, the parser maps the empty
sequence to the empty postfix sequence, and evaluation of the empty
postfix sequence fails with the final-stack error, whose message begins
with `"Invalid expression format"` (the stack holds zero values, not
exactly one). -/
theorem claim_C10_empty_expression : ∀ (s : String), s.data.all isSpaceChar = true →
    tokenize s = Except.ok []
    ∧ to_rpn [] = Except.ok []
    ∧ (∀ {E : Type} (En : AlgebraEngine E) (mmap : String → Option (SymbolicMatrix E))
        (simplifyFlag : Bool),
        eval_rpn En [] mmap simplifyFlag =
          Except.error
            ("Invalid expression format. Use formats like: A + B, T(A), INV(A), DET(A)")
        ∧ runPipeline En s mmap simplifyFlag =
          Except.error
            ("Invalid expression format. Use formats like: A + B, T(A), INV(A), DET(A)"))
    ∧ List.IsPrefix ("Invalid expression format").data
        ("Invalid expression format. Use formats like: A + B, T(A), INV(A), DET(A)").data := by
  have hraw : ∀ l : List Char, l.all isSpaceChar = true → rawTokenize l = Except.ok [] := by
    intro l
    induction l with
    | nil => intro _; simp [rawTokenize]
    | cons c rest ih =>
      intro h
      simp only [List.all_cons, Bool.and_eq_true] at h
      simp [rawTokenize, h.1, ih h.2]
  intro s hs
  have htok : tokenize s = Except.ok [] := by
    rw [tokenize, hraw s.data hs]
    rfl
  refine ⟨htok, rfl, ?_, by decide⟩
  intro E En mmap simplifyFlag
  refine ⟨rfl, ?_⟩
  rw [runPipeline, htok]
  rfl

/-- Claim C10, witness at the two-space expression string. -/
theorem claim_C10_empty_expression_witness :
    tokenize ("  ") = Except.ok []
    ∧ eval_rpn strEngine [] (fun _ => none) false =
      Except.error
        ("Invalid expression format. Use formats like: A + B, T(A), INV(A), DET(A)") :=
  ⟨(claim_C10_empty_expression ("  ") (by decide)).1,
   ((claim_C10_empty_expression ("  ") (by decide)).2.2.1 strEngine (fun _ => none) false).1⟩

/-- Claim C5, counterexample.  The claim says every `NUMBER` token's
decimal point is internal to the digit run (never first or last).  But the
scanner consumes trailing and leading dots: `"1."` lexes to the single
`NUMBER` token `"1."`, whose last character is `.`, and `".5"` lexes to
the single `NUMBER` token `".5"`, whose first character is `.`. -/
theorem claim_C5_counterexample :
    tokenize ("1.") = Except.ok [⟨("NUMBER"), ("1.")⟩]
    ∧ ("1.").data.getLast? = some '.'
    ∧ tokenize (".5") = Except.ok [⟨("NUMBER"), (".5")⟩]
    ∧ (".5").data.head? = some '.' := by
  refine ⟨?_, by decide, ?_, by decide⟩ <;>
    simp +decide [tokenize, rawTokenize, insertMult, insertMultAux, insertRule]

/-- Claim C5, amended: every `NUMBER` token produced by the lexer is a run
of digit-or-dot characters containing at most one decimal point and at
least one digit; the decimal point, when present, need not be internal (it
may begin or end the token, as in `".5"` and `"1."`). -/
theorem claim_C5_amended : ∀ (s : String) (ts : List Token),
    tokenize s = Except.ok ts →
    ∀ tok ∈ ts, tok.type = ("NUMBER") →
      tok.value.data.all isNumChar = true
      ∧ tok.value.data.count '.' ≤ 1
      ∧ tok.value.data.any isDigitChar = true := by
  intro s ts hts tok hmem htype
  rw [tokenize] at hts
  cases hraw : rawTokenize s.data with
  | error e => rw [hraw] at hts; cases hts
  | ok raw =>
    rw [hraw] at hts
    obtain rfl : insertMult raw = ts := by simpa using hts
    rcases mem_insertMult raw tok hmem with hm | hm
    · exact rawTokenize_number_inv s.data raw hraw tok hm htype
    · exfalso
      rw [hm] at htype
      exact absurd htype (by decide)

/-- Claim C5, witness for the amended theorem: the `NUMBER` token of
`"1.5"` satisfies the invariant. -/
theorem claim_C5_amended_witness :
    (("1.5") : String).data.all isNumChar = true
    ∧ (("1.5") : String).data.count '.' ≤ 1
    ∧ (("1.5") : String).data.any isDigitChar = true :=
  claim_C5_amended ("1.5") [⟨("NUMBER"), ("1.5")⟩]
    (by simp +decide [tokenize, rawTokenize, insertMult, insertMultAux, insertRule])
    ⟨("NUMBER"), ("1.5")⟩ (by decide) rfl

/-- A prefix of `xs ++ ys` made of `p`-characters stays inside `xs` when
the first character of `ys` fails `p`. -/
theorem prefix_append_head_not {p : Char → Bool} :
    ∀ (xs t ys : List Char), t <+: xs ++ ys →
      (∀ c ∈ t, p c = true) → (∀ d, ys.head? = some d → p d = false) →
      t <+: xs := by
  intro xs
  induction xs with
  | nil =>
    intro t ys hpre hall hhead
    cases t with
    | nil => exact List.nil_prefix
    | cons e t' =>
      exfalso
      rcases hpre with ⟨u, hu⟩
      have hys : ys.head? = some e := by
        rw [List.nil_append] at hu
        rw [← hu]
        rfl
      have h1 := hhead e hys
      have h2 := hall e (by simp)
      rw [h1] at h2
      exact Bool.false_ne_true h2
  | cons a xs' ih =>
    intro t ys hpre hall hhead
    cases t with
    | nil => exact List.nil_prefix
    | cons e t' =>
      rw [List.cons_append, List.cons_prefix_cons] at hpre
      obtain ⟨rfl, h2⟩ := hpre
      have h3 := ih t' ys h2 (fun c hc => hall c (List.mem_cons_of_mem _ hc)) hhead
      exact List.cons_prefix_cons.mpr ⟨rfl, h3⟩

/-- An all-`p` contiguous piece of `xs ++ ys` lies inside `xs` or inside
`ys` when the first character of `ys` fails `p`. -/
theorem infix_append_head_not {p : Char → Bool} :
    ∀ (xs t ys : List Char), t <:+: xs ++ ys →
      (∀ c ∈ t, p c = true) → (∀ d, ys.head? = some d → p d = false) →
      t <:+: xs ∨ t <:+: ys := by
  intro xs
  induction xs with
  | nil =>
    intro t ys h _ _
    exact Or.inr (by simpa using h)
  | cons a xs' ih =>
    intro t ys h hall hhead
    rw [List.cons_append, List.infix_cons_iff] at h
    rcases h with h | h
    · have h' : t <+: (a :: xs') ++ ys := by simpa using h
      exact Or.inl (prefix_append_head_not (a :: xs') t ys h' hall hhead).isInfix
    · rcases ih t ys h hall hhead with h' | h'
      · exact Or.inl (h'.trans (List.infix_cons (List.infix_refl xs')))
      · exact Or.inr h'

/-- An all-`p` contiguous piece of `xs ++ ys` lies inside `ys` when every
character of `xs` fails `p`. -/
theorem infix_skip_notp {p : Char → Bool} :
    ∀ (xs t ys : List Char), t <:+: xs ++ ys →
      (∀ c ∈ t, p c = true) → (∀ c ∈ xs, p c = false) →
      t <:+: ys := by
  intro xs
  induction xs with
  | nil =>
    intro t ys h _ _
    simpa using h
  | cons a xs' ih =>
    intro t ys h hall hxs
    rw [List.cons_append, List.infix_cons_iff] at h
    rcases h with h | h
    · cases t with
      | nil => exact (List.nil_infix : [] <:+: ys)
      | cons e t' =>
        exfalso
        rw [List.cons_prefix_cons] at h
        have h1 := hall e (by simp)
        have h2 := hxs a (by simp)
        rw [h.1] at h1
        rw [h2] at h1
        exact Bool.false_ne_true h1
    · exact ih t ys h hall (fun c hc => hxs c (List.mem_cons_of_mem _ hc))

/-- Whitespace characters are not number characters. -/
theorem not_num_of_space {c : Char} (h : isSpaceChar c = true) :
    isNumChar c = false := by
  have hm : c ∈ [' ', '\t', '\n', '\r', '\x0b', '\x0c'] := by
    simpa [isSpaceChar] using h
  exact (by decide : ∀ x ∈ [' ', '\t', '\n', '\r', '\x0b', '\x0c'],
    isNumChar x = false) c hm

/-- Operator characters are not number characters. -/
theorem not_num_of_op {c : Char} (h : isOpChar c = true) :
    isNumChar c = false := by
  have hm : c ∈ opsList := by simpa [isOpChar] using h
  exact (by decide : ∀ x ∈ opsList, isNumChar x = false) c hm

/-- Letters are not number characters. -/
theorem not_num_of_letter {c : Char} (h : isLetterChar c = true) :
    isNumChar c = false := by
  have hm : c ∈ lettersList := by simpa [isLetterChar] using h
  exact (by decide : ∀ x ∈ lettersList, isNumChar x = false) c hm

/-- A number character is recognised by the lexer. -/
theorem not_outside_of_num {c : Char} (h : isNumChar c = true) :
    isOutsideChar c = false := by
  rcases (by simpa [isNumChar] using h : isDigitChar c = true ∨ c = '.') with h' | h'
  · simp [isOutsideChar, h']
  · subst h'
    decide

/-- Invariant of the raw scan: on success, the input holds no digit/dot
run with two or more dots, and every character of the input belongs to a
recognised class. -/
theorem rawTokenize_ok_scan_inv : ∀ (l : List Char) (ts : List Token),
    rawTokenize l = Except.ok ts →
      (¬ hasBadNumRun l) ∧ (∀ c ∈ l, isOutsideChar c = false) := by
  intro l
  induction l using rawTokenize.induct with
  | case1 =>
    intro ts _
    constructor
    · rintro ⟨t, hinf, _, hcnt⟩
      rw [List.infix_nil] at hinf
      subst hinf
      simp at hcnt
    · simp
  | case2 c tail hs ih =>
    intro ts hts
    rw [show rawTokenize (c :: tail) = rawTokenize tail by
      simp [rawTokenize, hs]] at hts
    obtain ⟨hbad, hout⟩ := ih ts hts
    constructor
    · rintro ⟨t, hinf, hall, hcnt⟩
      have h' : t <:+: tail :=
        infix_skip_notp [c] t tail (by simpa using hinf) hall
          (by intro x hx; rw [List.mem_singleton] at hx; subst hx
              exact not_num_of_space hs)
      exact hbad ⟨t, h', hall, hcnt⟩
    · intro x hx
      rcases List.mem_cons.mp hx with rfl | hx'
      · simp [isOutsideChar, hs]
      · exact hout x hx'
  | case3 c tail hs ho e herr ih =>
    intro ts hts
    rw [show rawTokenize (c :: tail) = Except.error e by
      simp [rawTokenize, hs, ho, herr]] at hts
    cases hts
  | case4 c tail hs ho ts0 hok ih =>
    intro ts hts
    obtain ⟨hbad, hout⟩ := ih ts0 hok
    constructor
    · rintro ⟨t, hinf, hall, hcnt⟩
      have h' : t <:+: tail :=
        infix_skip_notp [c] t tail (by simpa using hinf) hall
          (by intro x hx; rw [List.mem_singleton] at hx; subst hx
              exact not_num_of_op ho)
      exact hbad ⟨t, h', hall, hcnt⟩
    · intro x hx
      rcases List.mem_cons.mp hx with rfl | hx'
      · simp [isOutsideChar, ho]
      · exact hout x hx'
  | case5 c tail hs ho hnum hcnt =>
    intro ts hts
    rw [show rawTokenize (c :: tail) = Except.error ("Invalid number format") by
      simp only [rawTokenize]
      rw [if_neg (by simp [hs]), if_neg (by simp [ho]), if_pos hnum, if_pos hcnt]] at hts
    cases hts
  | case6 c tail hs ho hnum hcnt e herr ih =>
    intro ts hts
    rw [show rawTokenize (c :: tail) = Except.error e by
      simp only [rawTokenize]
      rw [if_neg (by simp [hs]), if_neg (by simp [ho]), if_pos hnum, if_neg hcnt, herr]] at hts
    cases hts
  | case7 c tail hs ho hnum hcnt ts0 hok ih =>
    intro ts hts
    obtain ⟨hbad, hout⟩ := ih ts0 hok
    have hnum' : isDigitChar c = true ∨ (c == '.' && firstIsDigit tail) = true := by
      simpa using hnum
    have hcnum : isNumChar c = true := by
      rcases hnum' with h | h
      · exact isNumChar_of_digit h
      · have h' : (c == '.') = true ∧ firstIsDigit tail = true := by simpa using h
        simp [isNumChar, h'.1]
    have hsplit : c :: tail =
        (c :: tail.takeWhile isNumChar) ++ tail.dropWhile isNumChar := by
      rw [List.cons_append, List.takeWhile_append_dropWhile]
    constructor
    · rintro ⟨t, hinf, hall, hcnt2⟩
      rw [hsplit] at hinf
      rcases infix_append_head_not (c :: tail.takeWhile isNumChar) t
          (tail.dropWhile isNumChar) hinf hall
          (fun d hd => head_dropWhile_false isNumChar tail d hd) with h' | h'
      · have hle : t.count '.' ≤ (c :: tail.takeWhile isNumChar).count '.' :=
          List.Sublist.count_le h'.sublist '.'
        omega
      · exact hbad ⟨t, h', hall, hcnt2⟩
    · intro x hx
      rw [hsplit] at hx
      rcases List.mem_append.mp hx with hx' | hx'
      · rcases List.mem_cons.mp hx' with rfl | hx''
        · exact not_outside_of_num hcnum
        · exact not_outside_of_num (List.mem_takeWhile_imp hx'')
      · exact hout x hx'
  | case8 c tail hs ho hnum hlet e herr ih =>
    intro ts hts
    rw [show rawTokenize (c :: tail) = Except.error e by
      simp only [rawTokenize]
      rw [if_neg (by simp [hs]), if_neg (by simp [ho]), if_neg hnum, if_pos hlet, herr]] at hts
    cases hts
  | case9 c tail hs ho hnum hlet ts0 hok ih =>
    intro ts hts
    obtain ⟨hbad, hout⟩ := ih ts0 hok
    have hsplit : c :: tail =
        (c :: tail.takeWhile isLetterChar) ++ tail.dropWhile isLetterChar := by
      rw [List.cons_append, List.takeWhile_append_dropWhile]
    have hrunletter : ∀ x ∈ c :: tail.takeWhile isLetterChar, isLetterChar x = true := by
      intro x hx
      rcases List.mem_cons.mp hx with rfl | hx'
      · exact hlet
      · exact List.mem_takeWhile_imp hx'
    constructor
    · rintro ⟨t, hinf, hall, hcnt2⟩
      rw [hsplit] at hinf
      have h' : t <:+: tail.dropWhile isLetterChar :=
        infix_skip_notp (c :: tail.takeWhile isLetterChar) t
          (tail.dropWhile isLetterChar) hinf hall
          (fun x hx => not_num_of_letter (hrunletter x hx))
      exact hbad ⟨t, h', hall, hcnt2⟩
    · intro x hx
      rw [hsplit] at hx
      rcases List.mem_append.mp hx with hx' | hx'
      · simp [isOutsideChar, hrunletter x hx']
      · exact hout x hx'
  | case10 c tail hs ho hnum hlet =>
    intro ts hts
    rw [show rawTokenize (c :: tail) =
        Except.error (("Unexpected character: ") ++ String.mk [c]) by
      simp only [rawTokenize]
      rw [if_neg (by simp [hs]), if_neg (by simp [ho]), if_neg hnum, if_neg hlet]] at hts
    cases hts

/-- Claim C6: `tokenize` fails on every input containing a digit/dot run
with more than one decimal point (e.g. `"1.2.3"`), and on every input
containing a character outside letters, digits, `.`, the operators
`+ - * /`, parentheses, and whitespace; when the raw scan reaches an
unrecognised character, the error message names that character. -/
theorem claim_C6_lex_failures :
    (∀ s : String, hasBadNumRun s.data → ∃ e, tokenize s = Except.error e)
    ∧ (∀ s : String, (∃ c ∈ s.data, isOutsideChar c = true) →
        ∃ e, tokenize s = Except.error e)
    ∧ (∀ (c : Char) (rest : List Char), isOutsideChar c = true →
        rawTokenize (c :: rest) =
          Except.error (("Unexpected character: ") ++ String.mk [c])) := by
  refine ⟨?_, ?_, ?_⟩
  · intro s hbad
    cases h : rawTokenize s.data with
    | error e => exact ⟨e, by rw [tokenize, h]⟩
    | ok ts => exact absurd hbad (rawTokenize_ok_scan_inv s.data ts h).1
  · intro s hc
    cases h : rawTokenize s.data with
    | error e => exact ⟨e, by rw [tokenize, h]⟩
    | ok ts =>
      obtain ⟨c, hcm, hout⟩ := hc
      have := (rawTokenize_ok_scan_inv s.data ts h).2 c hcm
      rw [this] at hout
      cases hout
  · intro c rest hout
    obtain ⟨⟨⟨⟨h1, h2⟩, h3⟩, h4⟩, h5⟩ :
        (((isSpaceChar c = false ∧ isOpChar c = false) ∧ isDigitChar c = false)
          ∧ ¬c = '.') ∧ isLetterChar c = false := by
      simpa [isOutsideChar] using hout
    simp only [rawTokenize]
    rw [if_neg (by simp [h1]), if_neg (by simp [h2]),
      if_neg (by simp [h3, h4]), if_neg (by simp [h5])]

/-- Claim C6, witness: the bad-number part at `"1.2.3"` (run `.2.`) and
the unrecognised-character part at `"@"`. -/
theorem claim_C6_lex_failures_witness :
    (∃ e, tokenize ("1.2.3") = Except.error e)
    ∧ (∃ e, tokenize ("@") = Except.error e) :=
  ⟨claim_C6_lex_failures.1 ("1.2.3") ⟨['.', '2', '.'], by decide, by decide, by decide⟩,
   claim_C6_lex_failures.2.1 ("@") ⟨'@', by decide, by decide⟩⟩

/-- Binary-operator token types are not `(`. -/
theorem not_paren_of_opType {o : Token} (h : isOpType o.type = true) :
    isParenTok o = false := by
  rcases (by simpa [isOpType] using h :
      ((o.type = ("+") ∨ o.type = ("-")) ∨ o.type = ("*")) ∨ o.type = ("/")) with
    ((h' | h') | h') | h' <;> simp [isParenTok, h']

/-- Popping binary operators preserves the number of `(` on the stack. -/
theorem countP_paren_dropWhile_popCond (tt : String) (ops : List Token) :
    (ops.dropWhile (popCond tt)).countP isParenTok = ops.countP isParenTok := by
  conv_rhs => rw [← List.takeWhile_append_dropWhile (popCond tt) ops]
  rw [List.countP_append]
  have htake : (ops.takeWhile (popCond tt)).countP isParenTok = 0 := by
    rw [List.countP_eq_zero]
    intro o ho
    have hc := List.mem_takeWhile_imp ho
    have hop : isOpType o.type = true := by
      have := (by simpa [popCond] using hc :
        isOpType o.type = true ∧ prec tt ≤ prec o.type)
      exact this.1
    simp [not_paren_of_opType hop]
  omega

/-- When no `(` is on the stack, the `)`-scan of the parser exhausts it. -/
theorem dropWhile_paren_nil {ops : List Token}
    (h : ops.countP isParenTok = 0) :
    ops.dropWhile (fun o => !(o.type == ("("))) = [] := by
  rw [List.dropWhile_eq_nil_iff]
  intro o ho
  have := List.countP_eq_zero.mp h o ho
  simpa [isParenTok] using this

/-- When at least one `(` is on the stack, the `)`-scan of the parser
splits the stack at the first `(`. -/
theorem span_at_paren : ∀ (ops : List Token), 0 < ops.countP isParenTok →
    ∃ pre lp post, ops = pre ++ lp :: post
      ∧ ops.takeWhile (fun o => !(o.type == ("("))) = pre
      ∧ ops.dropWhile (fun o => !(o.type == ("("))) = lp :: post
      ∧ isParenTok lp = true
      ∧ pre.countP isParenTok = 0
      ∧ post.countP isParenTok = ops.countP isParenTok - 1 := by
  intro ops
  induction ops with
  | nil => intro h; simp at h
  | cons o os ih =>
    intro h
    by_cases hp : isParenTok o = true
    · have hp' : (o.type == ("(")) = true := hp
      refine ⟨[], o, os, by simp, ?_, ?_, hp, by simp, ?_⟩
      · simp [List.takeWhile_cons, hp']
      · simp [List.dropWhile_cons, hp']
      · simp [List.countP_cons, hp]
    · have hpf : isParenTok o = false := by simpa using hp
      have hp' : (o.type == ("(")) = false := hpf
      have hcnt : 0 < os.countP isParenTok := by
        have : (o :: os).countP isParenTok = os.countP isParenTok := by
          simp [List.countP_cons, hpf]
        omega
      obtain ⟨pre, lp, post, heq, htake, hdrop, hlp, hpre, hpost⟩ := ih hcnt
      refine ⟨o :: pre, lp, post, by rw [heq]; rfl, ?_, ?_, hlp, ?_, ?_⟩
      · simp [List.takeWhile_cons, hp', htake]
      · simp [List.dropWhile_cons, hp', hdrop]
      · simp [List.countP_cons, hpf, hpre]
      · have : (o :: os).countP isParenTok = os.countP isParenTok := by
          simp [List.countP_cons, hpf]
        omega

/-- The operator-token step of the loop invariant: a binary operator
neither consumes nor produces a `(` on the operator stack and leaves the
balance scan unchanged. -/
theorem paren_step_op (out ops rest : List Token) (ty v : String)
    (hop : isOpType ty = true)
    (hrest : rest.all lexTypeOK = true)
    (ih : ∀ out' ops' : List Token, rest.all lexTypeOK = true →
      ((∀ k, parenScan (ops'.countP isParenTok) rest = some k →
         ∃ out2 ops2, List.foldlM rpnStep (out', ops') rest = Except.ok (out2, ops2)
           ∧ ops2.countP isParenTok = k)
       ∧ (parenScan (ops'.countP isParenTok) rest = none →
         List.foldlM rpnStep (out', ops') rest =
           Except.error ("Mismatched parentheses")))) :
    ((∀ k, parenScan (ops.countP isParenTok) (⟨ty, v⟩ :: rest) = some k →
       ∃ out2 ops2,
         List.foldlM rpnStep (out, ops) (⟨ty, v⟩ :: rest) = Except.ok (out2, ops2)
         ∧ ops2.countP isParenTok = k)
     ∧ (parenScan (ops.countP isParenTok) (⟨ty, v⟩ :: rest) = none →
       List.foldlM rpnStep (out, ops) (⟨ty, v⟩ :: rest) =
         Except.error ("Mismatched parentheses"))) := by
  have hty4 : ((ty = ("+") ∨ ty = ("-")) ∨ ty = ("*")) ∨ ty = ("/") := by
    simpa [isOpType] using hop
  have hstep : rpnStep (out, ops) ⟨ty, v⟩ =
      Except.ok (out ++ ops.takeWhile (popCond ty),
        ⟨ty, v⟩ :: ops.dropWhile (popCond ty)) := by
    rcases hty4 with ((h | h) | h) | h <;> subst h <;> rfl
  have hparen : isParenTok (⟨ty, v⟩ : Token) = false := by
    rcases hty4 with ((h | h) | h) | h <;> subst h <;> rfl
  have hcnt : (⟨ty, v⟩ :: ops.dropWhile (popCond ty)).countP isParenTok =
      ops.countP isParenTok := by
    rw [List.countP_cons, countP_paren_dropWhile_popCond]
    simp [hparen]
  have hs : parenScan (ops.countP isParenTok) (⟨ty, v⟩ :: rest) =
      parenScan (ops.countP isParenTok) rest := by
    rcases hty4 with ((h | h) | h) | h <;> subst h <;> rfl
  constructor
  · intro k hk
    rw [foldlM_step_ok _ _ _ _ _ hstep]
    refine (ih _ _ hrest).1 k ?_
    rw [hcnt]
    rw [hs] at hk
    exact hk
  · intro hk
    rw [foldlM_step_ok _ _ _ _ _ hstep]
    refine (ih _ _ hrest).2 ?_
    rw [hcnt]
    rw [hs] at hk
    exact hk

/-- Loop invariant of `to_rpn`: with lexer token types, the fold succeeds
exactly when the specification-level balance scan does, the number of `(`
left on the operator stack equals the scan's count of unclosed `(`, and an
unmatched `)` yields the mismatched-parenthesis error. -/
theorem rpn_loop_paren : ∀ (tokens out ops : List Token),
    tokens.all lexTypeOK = true →
    ((∀ k, parenScan (ops.countP isParenTok) tokens = some k →
       ∃ out' ops', List.foldlM rpnStep (out, ops) tokens = Except.ok (out', ops')
         ∧ ops'.countP isParenTok = k)
     ∧ (parenScan (ops.countP isParenTok) tokens = none →
       List.foldlM rpnStep (out, ops) tokens = Except.error ("Mismatched parentheses"))) := by
  intro tokens
  induction tokens with
  | nil =>
    intro out ops _
    constructor
    · intro k hk
      have hk' : ops.countP isParenTok = k := by simpa [parenScan] using hk
      exact ⟨out, ops, rfl, hk'⟩
    · intro hk
      simp [parenScan] at hk
  | cons t rest ih =>
    intro out ops hall
    have hallt : lexTypeOK t = true ∧ rest.all lexTypeOK = true := by simpa using hall
    obtain ⟨ty, v⟩ := t
    have hty : ty ∈ [("+"), ("-"), ("*"), ("/"), ("("), (")"), ("NUMBER"), ("WORD")] := by
      simpa [lexTypeOK] using hallt.1
    fin_cases hty
    case _ =>
      exact paren_step_op out ops rest (("+")) v rfl hallt.2 ih
    case _ =>
      exact paren_step_op out ops rest (("-")) v rfl hallt.2 ih
    case _ =>
      exact paren_step_op out ops rest (("*")) v rfl hallt.2 ih
    case _ =>
      exact paren_step_op out ops rest (("/")) v rfl hallt.2 ih
    case _ =>
      have hstep : rpnStep (out, ops) ⟨("("), v⟩ =
          Except.ok (out, ⟨("("), v⟩ :: ops) := rfl
      have hcnt : (⟨("("), v⟩ :: ops).countP isParenTok =
          ops.countP isParenTok + 1 := by
        simp [List.countP_cons, isParenTok]
      constructor
      · intro k hk
        have hk' : parenScan (ops.countP isParenTok + 1) rest = some k := hk
        rw [foldlM_step_ok _ _ _ _ _ hstep]
        exact (ih out (⟨("("), v⟩ :: ops) hallt.2).1 k (by rw [hcnt]; exact hk')
      · intro hk
        have hk' : parenScan (ops.countP isParenTok + 1) rest = none := hk
        rw [foldlM_step_ok _ _ _ _ _ hstep]
        exact (ih out (⟨("("), v⟩ :: ops) hallt.2).2 (by rw [hcnt]; exact hk')
    case _ =>
      have hstep0 : rpnStep (out, ops) ⟨(")"), v⟩ =
          (match ops.dropWhile (fun o => !(o.type == ("("))) with
           | [] => Except.error ("Mismatched parentheses")
           | _ :: restOps =>
             match restOps with
             | f :: restOps' =>
               if f.type = ("FUNC") then
                 Except.ok (out ++ ops.takeWhile (fun o => !(o.type == ("("))) ++ [f],
                   restOps')
               else
                 Except.ok (out ++ ops.takeWhile (fun o => !(o.type == ("("))),
                   f :: restOps')
             | [] => Except.ok (out ++ ops.takeWhile (fun o => !(o.type == ("("))), [])) :=
        rfl
      cases hk0 : ops.countP isParenTok with
      | zero =>
        have hstep : rpnStep (out, ops) ⟨(")"), v⟩ =
            Except.error ("Mismatched parentheses") := by
          rw [hstep0, dropWhile_paren_nil hk0]
        constructor
        · intro k hk
          have hcontra : (none : Option Nat) = some k := by
            simp only [parenScan] at hk
            exact hk
          cases hcontra
        · intro _
          exact foldlM_step_err _ _ _ _ _ hstep
      | succ k' =>
        obtain ⟨pre, lp, post, heq, htake, hdrop, hlp, hpre, hpost⟩ :=
          span_at_paren ops (by omega)
        have hpost' : post.countP isParenTok = k' := by omega
        have hscan : ∀ r, parenScan (k' + 1) (⟨(")"), v⟩ :: rest) = r →
            parenScan k' rest = r := by
          intro r hr
          simpa [parenScan] using hr
        have hred : ∀ (restOps : List Token),
            ops.dropWhile (fun o => !(o.type == ("("))) = lp :: restOps →
            rpnStep (out, ops) ⟨(")"), v⟩ =
              (match restOps with
               | f :: restOps' =>
                 if f.type = ("FUNC") then
                   Except.ok (out ++ ops.takeWhile (fun o => !(o.type == ("("))) ++ [f],
                     restOps')
                 else
                   Except.ok (out ++ ops.takeWhile (fun o => !(o.type == ("("))),
                     f :: restOps')
               | [] =>
                 Except.ok (out ++ ops.takeWhile (fun o => !(o.type == ("("))), [])) := by
          intro restOps hd
          rw [hstep0, hd]
        obtain ⟨ops2, out2, hstep', hcnt2⟩ :
            ∃ ops2 out2, rpnStep (out, ops) ⟨(")"), v⟩ = Except.ok (out2, ops2)
              ∧ ops2.countP isParenTok = k' := by
          cases post with
          | nil =>
            refine ⟨[], out ++ ops.takeWhile (fun o => !(o.type == ("("))), ?_, ?_⟩
            · rw [hred [] hdrop]
            · simpa using hpost'
          | cons f post' =>
            by_cases hf : f.type = ("FUNC")
            · refine ⟨post', out ++ ops.takeWhile (fun o => !(o.type == ("("))) ++ [f],
                ?_, ?_⟩
              · rw [hred (f :: post') hdrop]
                exact if_pos hf
              · have hfp : isParenTok f = false := by simp [isParenTok, hf]
                have : (f :: post').countP isParenTok = post'.countP isParenTok := by
                  simp [List.countP_cons, hfp]
                omega
            · refine ⟨f :: post', out ++ ops.takeWhile (fun o => !(o.type == ("("))),
                ?_, ?_⟩
              · rw [hred (f :: post') hdrop]
                exact if_neg hf
              · omega
        constructor
        · intro k hk
          rw [foldlM_step_ok _ _ _ _ _ hstep']
          exact (ih out2 ops2 hallt.2).1 k (by rw [hcnt2]; exact hscan _ hk)
        · intro hk
          rw [foldlM_step_ok _ _ _ _ _ hstep']
          exact (ih out2 ops2 hallt.2).2 (by rw [hcnt2]; exact hscan _ hk)
    case _ =>
      have hstep : rpnStep (out, ops) ⟨("NUMBER"), v⟩ =
          Except.ok (out ++ [⟨("NUMBER"), v⟩], ops) := rfl
      constructor
      · intro k hk
        rw [foldlM_step_ok _ _ _ _ _ hstep]
        exact (ih (out ++ [⟨("NUMBER"), v⟩]) ops hallt.2).1 k (by exact hk)
      · intro hk
        rw [foldlM_step_ok _ _ _ _ _ hstep]
        exact (ih (out ++ [⟨("NUMBER"), v⟩]) ops hallt.2).2 (by exact hk)
    case _ =>
      by_cases hfn : v ∈ funcsSet
      · have hstep : rpnStep (out, ops) ⟨("WORD"), v⟩ =
            Except.ok (out, ⟨("FUNC"), v⟩ :: ops) := by
          simp only [rpnStep]
          rw [if_pos trivial, if_pos hfn]
        have hcnt : (⟨("FUNC"), v⟩ :: ops).countP isParenTok =
            ops.countP isParenTok := by
          simp [List.countP_cons, isParenTok]
        constructor
        · intro k hk
          rw [foldlM_step_ok _ _ _ _ _ hstep]
          exact (ih out (⟨("FUNC"), v⟩ :: ops) hallt.2).1 k (by rw [hcnt]; exact hk)
        · intro hk
          rw [foldlM_step_ok _ _ _ _ _ hstep]
          exact (ih out (⟨("FUNC"), v⟩ :: ops) hallt.2).2 (by rw [hcnt]; exact hk)
      · have hstep : rpnStep (out, ops) ⟨("WORD"), v⟩ =
            Except.ok (out ++ [⟨("VAR"), v⟩], ops) := by
          simp only [rpnStep]
          rw [if_pos trivial, if_neg hfn]
        constructor
        · intro k hk
          rw [foldlM_step_ok _ _ _ _ _ hstep]
          exact (ih (out ++ [⟨("VAR"), v⟩]) ops hallt.2).1 k (by exact hk)
        · intro hk
          rw [foldlM_step_ok _ _ _ _ _ hstep]
          exact (ih (out ++ [⟨("VAR"), v⟩]) ops hallt.2).2 (by exact hk)

/-- Claim C7: over lexer-produced token types, `to_rpn` fails with the
mismatched-parenthesis error exactly when the parentheses are unbalanced
(a `)` with no open `(`, or unclosed `(` at end of input, i.e. the balance
scan does not return `some 0`). -/
theorem claim_C7_paren : ∀ (tokens : List Token), tokens.all lexTypeOK = true →
    (to_rpn tokens = Except.error ("Mismatched parentheses")
      ↔ ¬ parenScan 0 tokens = some 0) := by
  intro tokens hall
  have h := rpn_loop_paren tokens [] [] hall
  constructor
  · intro herr hbal
    obtain ⟨out', ops', hfold, hcnt⟩ := h.1 0 hbal
    have hnone : ops'.all (fun o => !(o.type == ("("))) = true := by
      rw [List.all_eq_true]
      intro o ho
      have hz := List.countP_eq_zero.mp hcnt o ho
      simpa [isParenTok] using hz
    have hok : to_rpn tokens = Except.ok (out' ++ ops') := by
      rw [to_rpn, hfold]
      show (if (ops'.all fun o => !(o.type == ("("))) = true
          then Except.ok (out' ++ ops')
          else Except.error ("Mismatched parentheses")) = Except.ok (out' ++ ops')
      rw [if_pos hnone]
    rw [hok] at herr
    cases herr
  · intro hbal
    cases hscan : parenScan 0 tokens with
    | none =>
      have hfold := h.2 hscan
      rw [to_rpn, hfold]
    | some k =>
      have hk : ¬ k = 0 := fun h0 => hbal (h0 ▸ hscan)
      obtain ⟨out', ops', hfold, hcnt⟩ := h.1 k hscan
      have hex : ¬ ops'.all (fun o => !(o.type == ("("))) = true := by
        intro hallp
        have hz : ops'.countP isParenTok = 0 := by
          rw [List.countP_eq_zero]
          intro o ho
          have := List.all_eq_true.mp hallp o ho
          simpa [isParenTok] using this
        omega
      rw [to_rpn, hfold]
      show (if (ops'.all fun o => !(o.type == ("("))) = true
          then Except.ok (out' ++ ops')
          else Except.error ("Mismatched parentheses")) =
        Except.error ("Mismatched parentheses")
      rw [if_neg hex]

/-- Claim C7, witness: the token sequences of `"A+B)"` and `"(A+B"` both
fail with the mismatched-parenthesis error. -/
theorem claim_C7_paren_witness :
    to_rpn [⟨("WORD"), ("A")⟩, ⟨("+"), ("+")⟩, ⟨("WORD"), ("B")⟩, ⟨(")"), (")")⟩] =
      Except.error ("Mismatched parentheses")
    ∧ to_rpn [⟨("("), ("(")⟩, ⟨("WORD"), ("A")⟩, ⟨("+"), ("+")⟩, ⟨("WORD"), ("B")⟩] =
      Except.error ("Mismatched parentheses") :=
  ⟨(claim_C7_paren _ (by decide)).mpr (by decide),
   (claim_C7_paren _ (by decide)).mpr (by decide)⟩

/-- Claim C9: transpose is an involution at the evaluator level: for
every matrix bound to the name `A`, the whole pipeline on `"T(T(A))"`
returns exactly the same response as the pipeline on `"A"` (in particular
the same rendered matrix cells), for either simplify setting. -/
theorem claim_C9_transpose : ∀ {E : Type} (En : AlgebraEngine E)
    (mmap : String → Option (SymbolicMatrix E)) (M : SymbolicMatrix E)
    (simplifyFlag : Bool), mmap ("A") = some M →
    runPipeline En ("T(T(A))") mmap simplifyFlag =
      runPipeline En ("A") mmap simplifyFlag := by
  intro E En mmap M simplifyFlag h
  have h1 : tokenize ("T(T(A))") =
      Except.ok [⟨("WORD"), ("T")⟩, ⟨("("), ("(")⟩, ⟨("WORD"), ("T")⟩,
        ⟨("("), ("(")⟩, ⟨("WORD"), ("A")⟩, ⟨(")"), (")")⟩, ⟨(")"), (")")⟩] := by
    simp +decide [tokenize, rawTokenize, insertMult, insertMultAux, insertRule]
  have h2 : tokenize ("A") = Except.ok [⟨("WORD"), ("A")⟩] := by
    simp +decide [tokenize, rawTokenize, insertMult, insertMultAux, insertRule]
  have h3 : to_rpn [⟨("WORD"), ("T")⟩, ⟨("("), ("(")⟩, ⟨("WORD"), ("T")⟩,
      ⟨("("), ("(")⟩, ⟨("WORD"), ("A")⟩, ⟨(")"), (")")⟩, ⟨(")"), (")")⟩] =
      Except.ok [⟨("VAR"), ("A")⟩, ⟨("FUNC"), ("T")⟩, ⟨("FUNC"), ("T")⟩] := rfl
  have h4 : to_rpn [⟨("WORD"), ("A")⟩] = Except.ok [⟨("VAR"), ("A")⟩] := rfl
  have e1 : evalStep En mmap simplifyFlag [] ⟨("VAR"), ("A")⟩ =
      Except.ok [TypedValue.matrix M] := by
    rw [evalStep_var, h]
  have e2 : evalStep En mmap simplifyFlag [TypedValue.matrix M] ⟨("FUNC"), ("T")⟩ =
      Except.ok [TypedValue.matrix (transpose M)] := rfl
  have e3 : evalStep En mmap simplifyFlag [TypedValue.matrix (transpose M)]
      ⟨("FUNC"), ("T")⟩ =
      Except.ok [TypedValue.matrix (transpose (transpose M))] := rfl
  have efold1 : List.foldlM (evalStep En mmap simplifyFlag) []
      [⟨("VAR"), ("A")⟩, ⟨("FUNC"), ("T")⟩, ⟨("FUNC"), ("T")⟩] =
      Except.ok [TypedValue.matrix M] := by
    rw [foldlM_step_ok _ _ _ _ _ e1, foldlM_step_ok _ _ _ _ _ e2,
      foldlM_step_ok _ _ _ _ _ e3, transpose_transpose]
    rfl
  have efold2 : List.foldlM (evalStep En mmap simplifyFlag) [] [⟨("VAR"), ("A")⟩] =
      Except.ok [TypedValue.matrix M] := by
    rw [foldlM_step_ok _ _ _ _ _ e1]
    rfl
  rw [runPipeline, runPipeline, h1, h2]
  dsimp only
  rw [h3, h4]
  dsimp only
  rw [eval_rpn, eval_rpn, efold1, efold2]

/-- Claim C9, witness at a concrete 2×2 symbolic matrix bound to `A`. -/
theorem claim_C9_transpose_witness :
    runPipeline strEngine ("T(T(A))")
        (fun n => if n = ("A")
          then some (⟨2, 2, fun r c => Nat.repr r ++ Nat.repr c⟩ : SymbolicMatrix String)
          else none) false =
      runPipeline strEngine ("A")
        (fun n => if n = ("A")
          then some (⟨2, 2, fun r c => Nat.repr r ++ Nat.repr c⟩ : SymbolicMatrix String)
          else none) false :=
  claim_C9_transpose strEngine _ _ false rfl

end MatrixServer
